import Mathlib

/-!
Verification of the X-DailyMovers scoring/ranking/reconciliation engine
(`src/CryptoScript.js`), shallowly embedded over `ℚ` (JS numbers are modelled
as exact rationals; `undefined` results of out-of-range array indexing are
modelled as `Option`, and a thrown `TypeError` inside the per-asset
`try { ... } catch (e) { continue; }` block is modelled as `none` of the
whole per-asset computation).
-/

namespace DailyMovers

/-- One OHLCV bar.  The source represents a bar as the array
`[timestamp, open, high, low, close, volume]` and indexes it as
`d[1]`=open, `d[2]`=high, `d[3]`=low, `d[4]`=close, `d[5]`=volume
(the timestamp `d[0]` is never read, so it is omitted here). -/
structure Bar where
  op : ℚ
  hi : ℚ
  lo : ℚ
  cl : ℚ
  vol : ℚ
deriving DecidableEq, Repr

/-- Per-asset inputs of one loop iteration of `getUnifiedPicks`
(src lines 128-142): the pair symbol, the hourly candles
(`fetchOHLCV(symbol,'1h',undefined,100)`, at most 100 bars), the daily
candles (`fetchOHLCV(symbol,'1d',undefined,30)`, at most 30 bars) and the
last traded price `tickers[symbol].last`. -/
structure Ctx where
  symbol : String
  ohlcv : List Bar
  daily : List Bar
  currentPrice : ℚ
deriving DecidableEq, Repr

/-- One Whale Alert transfer event: only `t.symbol` and `t.to.owner_type`
are read by the source (line 194-195). -/
structure WhaleTx where
  symbol : String
  toOwnerType : String
deriving DecidableEq, Repr

/-- The scan-scoped external signals shared by every asset
(src lines 97-115 and the per-asset funding lookup of line 203):
the parsed fear/greed index, the LunarCrush galaxy-score lookup
(`none` = symbol absent from `socialData`), the Whale Alert transfer list,
and the funding-rate lookup (`none` = `fetchFundingRate` threw, which the
inner `try {} catch(e){}` of line 202-205 swallows). -/
structure Sig where
  fearIndex : Int
  social : String → Option ℚ
  whaleFlows : List WhaleTx
  funding : String → Option ℚ

/-- One scored candidate as pushed at src line 212:
`{ symbol, score, triggers, priceAt5am: currentPrice }`. -/
structure Candidate where
  symbol : String
  score : ℕ
  triggers : List String
  priceAt5am : ℚ
deriving DecidableEq, Repr

/-- JS array indexing `l[i]` for a possibly negative index: `undefined`
(here `none`) when out of range. -/
def jsIdx {α : Type} (l : List α) (i : Int) : Option α :=
  if h : 0 ≤ i ∧ i.toNat < l.length then some (l.get ⟨i.toNat, h.2⟩) else none

/-- JS `a < b` where either operand may be `undefined`: any comparison with
`undefined` is false. -/
def jsLt (a b : Option ℚ) : Bool :=
  match a, b with
  | some x, some y => decide (x < y)
  | _, _ => false

/-- JS `a > b` with possibly-`undefined` operands. -/
def jsGt (a b : Option ℚ) : Bool := jsLt b a

/-- JS `a <= b` with possibly-`undefined` operands. -/
def jsLe (a b : Option ℚ) : Bool :=
  match a, b with
  | some x, some y => decide (x ≤ y)
  | _, _ => false

/-- `String.prototype.toUpperCase()`. -/
def jsToUpper (s : String) : String := s.map Char.toUpper

/-- `symbol.split('/')[0]` (src line 141): the base asset of a pair. -/
def coinSym (s : String) : String := (s.splitOn "/").headD ""

/-- `lunarRes.data.data.forEach(coin => socialData[coin.symbol] = coin)`
(src line 107) builds a map where a repeated symbol keeps the last entry;
looking a symbol up yields its galaxy score. -/
def lookupSocial (l : List (String × ℚ)) (s : String) : Option ℚ :=
  (l.reverse.find? (fun p => p.1 == s)).map (fun p => p.2)

/-! ## Indicator library

The indicator calls (`EMA.calculate`, `BollingerBands.calculate`,
`PSAR.calculate`, `VWAP.calculate`) come from the `technicalindicators`
npm package, which is not vendored in the repository; the definitions
below are modelled from the spec (section 4.1).  Every theorem below
depends only on the *length* of these outputs (empty when the input is
shorter than the period, else one value per window/bar), never on the
numeric values they produce. -/

/-- Modelled from the spec: tail of `movingAverageExp` — each next value is
`(v - prev) * k + prev` with smoothing `k = 2/(period+1)`. -/
def emaGo (k : ℚ) (prev : ℚ) : List ℚ → List ℚ
  | [] => []
  | v :: vs =>
      let nxt := (v - prev) * k + prev
      nxt :: emaGo k nxt vs

/-- Modelled from the spec: `movingAverageExp(values, period)` — empty when
`len(values) < period`, otherwise seeded with the simple average of the
first `period` values. -/
def emaCalculate (period : ℕ) (values : List ℚ) : List ℚ :=
  if values.length < period ∨ period = 0 then []
  else
    let k : ℚ := 2 / (period + 1)
    let seed := (values.take period).sum / period
    seed :: emaGo k seed (values.drop period)

/-- Rational square root, exact on perfect squares (the floating-point
square root inside the Bollinger std-dev is not modelled more finely; no
claim depends on the band width's numeric value). -/
def ratSqrt (q : ℚ) : ℚ := (Nat.sqrt (q.num.toNat * q.den) : ℚ) / (q.den : ℚ)

/-- One per-bar Bollinger value `{upper, middle, lower}`. -/
structure BBOut where
  middle : ℚ
  upper : ℚ
  lower : ℚ
deriving DecidableEq, Repr

/-- The sliding windows of width `p` over a list (one per output bar of a
period-`p` indicator); empty when the list is shorter than `p`. -/
def windows (p : ℕ) : List ℚ → List (List ℚ)
  | [] => []
  | x :: xs => if p ≤ (x :: xs).length then (x :: xs).take p :: windows p xs else []

/-- Arithmetic mean of a list (0 for the empty list, as `ℚ` division by 0). -/
def meanOf (l : List ℚ) : ℚ := l.sum / l.length

/-- Population variance of a list. -/
def varOf (l : List ℚ) : ℚ :=
  let m := meanOf l
  (l.map (fun x => (x - m) * (x - m))).sum / l.length

/-- Modelled from the spec: `bollinger(values, period, stdDevMultiplier)` —
per-window `{upper, middle, lower}`, empty when `len(values) < period`. -/
def bbCalculate (period : ℕ) (mult : ℚ) (values : List ℚ) : List BBOut :=
  (windows period values).map (fun w =>
    let m := meanOf w
    let sd := ratSqrt (varOf w)
    { middle := m, upper := m + mult * sd, lower := m - mult * sd })

/-- Internal state of the parabolic stop-and-reverse recurrence. -/
structure PsarState where
  rising : Bool
  sar : ℚ
  ep : ℚ
  af : ℚ
deriving DecidableEq, Repr

/-- One Wilder PSAR step: advance the stop towards the extreme point,
reverse when price crosses it. -/
def psarStep (step maxAf : ℚ) (st : PsarState) (h l : ℚ) : ℚ × PsarState :=
  let sar0 := st.sar + st.af * (st.ep - st.sar)
  if st.rising then
    if l < sar0 then
      (st.ep, { rising := false, sar := st.ep, ep := l, af := step })
    else if st.ep < h then
      (sar0, { rising := true, sar := sar0, ep := h, af := min (st.af + step) maxAf })
    else
      (sar0, { rising := true, sar := sar0, ep := st.ep, af := st.af })
  else
    if sar0 < h then
      (st.ep, { rising := true, sar := st.ep, ep := h, af := step })
    else if l < st.ep then
      (sar0, { rising := false, sar := sar0, ep := l, af := min (st.af + step) maxAf })
    else
      (sar0, { rising := false, sar := sar0, ep := st.ep, af := st.af })

/-- The PSAR recurrence over the remaining (high, low) pairs. -/
def psarGo (step maxAf : ℚ) (st : PsarState) : List (ℚ × ℚ) → List ℚ
  | [] => []
  | (h, l) :: rest =>
      let out := psarStep step maxAf st h l
      out.1 :: psarGo step maxAf out.2 rest

/-- Modelled from the spec: `parabolicStop(highs, lows, step, max)` — one
trailing-stop value per bar, starting in an uptrend at the first low. -/
def psarCalculate (step maxAf : ℚ) (highs lows : List ℚ) : List ℚ :=
  match highs, lows with
  | h0 :: hs, l0 :: ls =>
      l0 :: psarGo step maxAf { rising := true, sar := l0, ep := h0, af := step } (hs.zip ls)
  | _, _ => []

/-- Modelled from the spec: the cumulative VWAP recurrence over
(high, low, close, volume) tuples. -/
def vwapGo (cumTPV cumVol : ℚ) : List (ℚ × ℚ × ℚ × ℚ) → List ℚ
  | [] => []
  | (h, l, c, v) :: rest =>
      let tpv := cumTPV + (h + l + c) / 3 * v
      let vol := cumVol + v
      tpv / vol :: vwapGo tpv vol rest

/-- Modelled from the spec: `vwap(highs, lows, closes, volumes)` —
cumulative volume-weighted average price per bar. -/
def vwapCalculate (highs lows closes volumes : List ℚ) : List ℚ :=
  vwapGo 0 0 (highs.zip (lows.zip (closes.zip volumes)))

/-! ## Signal evaluators (src lines 146-208) -/

/-- Evaluator 1, Rounding Bottom (src lines 148-149):
`mid = Math.min(...dailyOhlcv.slice(10, 20).map(d => d[4]))` (`mid` is
`Infinity`, modelled as `none`, when the slice is empty), then
`if (mid < dailyOhlcv[0][4] && dailyOhlcv[29][4] > mid)`.
Reading `[4]` of `dailyOhlcv[0]` throws when the daily history is empty, and
reading `[4]` of `dailyOhlcv[29]` throws when it has fewer than 30 bars —
but JS `&&` short-circuits, so index 29 is only read when the first
conjunct holds.  A throw is `none`. -/
def roundingBottomCond (daily : List Bar) : Option Bool := do
  let mid := (((daily.drop 10).take 10).map Bar.cl).min?
  let b0 ← daily.head?
  match mid with
  | none => pure false
  | some m =>
      if m < b0.cl then do
        let b29 ← jsIdx daily 29
        pure (decide (m < b29.cl))
      else
        pure false

/-- Evaluator 2, Higher Lows (src line 152):
`lows[99] > lows[98] && lows[98] > lows[97]`; with fewer than 100 hourly
bars the out-of-range reads are `undefined` and the comparisons false. -/
def higherLowsCond (lows : List ℚ) : Bool :=
  jsGt (lows.get? 99) (lows.get? 98) && jsGt (lows.get? 98) (lows.get? 97)

/-- Evaluator 3, PSAR Flip (src lines 156-157):
`psar[psar.length-1] < closes[99] && psar[psar.length-2] > closes[98]`. -/
def psarFlipCond (highs lows closes : List ℚ) : Bool :=
  let psar := psarCalculate (2/100) (2/10) highs lows
  jsLt (jsIdx psar ((psar.length : Int) - 1)) (closes.get? 99) &&
    jsGt (jsIdx psar ((psar.length : Int) - 2)) (closes.get? 98)

/-- Evaluator 4, EMA Cross (src lines 161-163):
`ema10[ema10.length-1] > ema20[ema20.length-1]` (false when either list is
empty, since a comparison with `undefined` is false). -/
def emaCrossCond (closes : List ℚ) : Bool :=
  let e10 := emaCalculate 10 closes
  let e20 := emaCalculate 20 closes
  jsGt (jsIdx e10 ((e10.length : Int) - 1)) (jsIdx e20 ((e20.length : Int) - 1))

/-- Evaluator 5, Volatility Squeeze (src lines 166-168):
`const lastBB = bb[bb.length-1]; if ((lastBB.upper - lastBB.lower) / lastBB.middle < 0.03)`.
When `bb` is empty (fewer than 20 hourly closes) `lastBB` is `undefined`
and reading `.upper` throws — modelled as `none`. -/
def squeezeCondOpt (closes : List ℚ) : Option Bool := do
  let bb := bbCalculate 20 2 closes
  let lastBB ← jsIdx bb ((bb.length : Int) - 1)
  pure (decide ((lastBB.upper - lastBB.lower) / lastBB.middle < 3/100))

/-- Evaluator 6, Gapper Continuation (src lines 171-172):
`(closes[99] - dayOpen) / dayOpen >= 0.03`; with `closes[99]` `undefined`
the arithmetic is `NaN` and the comparison false. -/
def gapperCond (closes : List ℚ) (dayOpen : ℚ) : Bool :=
  match closes.get? 99 with
  | some c => decide ((c - dayOpen) / dayOpen ≥ 3/100)
  | none => false

/-- `closes.reduce((a,b) => a+b) / closes.length` (src line 176):
`reduce` without an initial value throws on an empty array. -/
def meanOpt (closes : List ℚ) : Option ℚ :=
  match closes with
  | [] => none
  | _ => some (closes.sum / closes.length)

/-- Evaluator 7, Mean Reversion (src line 177): `closes[99] < mean * 0.88`. -/
def meanRevCond (closes : List ℚ) (mean : ℚ) : Bool :=
  match closes.get? 99 with
  | some c => decide (c < mean * (88/100))
  | none => false

/-- Evaluator 8, VWAP Bounce (src lines 180-181):
`closes[99] > vwap[vwap.length-1] && lows[99] <= vwap[vwap.length-1]`. -/
def vwapBounceCond (highs lows closes volumes : List ℚ) : Bool :=
  let vw := vwapCalculate highs lows closes volumes
  jsGt (closes.get? 99) (jsIdx vw ((vw.length : Int) - 1)) &&
    jsLe (lows.get? 99) (jsIdx vw ((vw.length : Int) - 1))

/-! ## Scoring engine (src lines 132-213) -/

/-- One `if (cond) { score += w; triggers.push(label); }` block. -/
def applyStep (fired : Bool) (w : ℕ) (label : String) (st : ℕ × List String) :
    ℕ × List String :=
  if fired then (st.1 + w, st.2 ++ [label]) else st

/-- The imperative accumulation of `score`/`triggers` over the evaluator
blocks, starting from `score = 0; triggers = []` (src lines 143-144). -/
def runSteps (l : List (Bool × ℕ × String)) : ℕ × List String :=
  l.foldl (fun st s => applyStep s.1 s.2.1 s.2.2 st) (0, [])

/-- The sublist of (weight, label) pairs of the evaluators that fired. -/
def firedOf (l : List (Bool × ℕ × String)) : List (ℕ × String) :=
  (l.filter (fun s => s.1)).map (fun s => s.2)

/-- The 13 evaluator blocks of one loop iteration, in source order, each as
(fired?, weight, label).  The four fallible subcomputations (Rounding
Bottom's daily reads, the Bollinger `lastBB` read, the most recent daily
bar of the Gapper, and the `reduce` mean) are sequenced first: each is pure
and the source's per-asset catch (line 213) discards the asset whenever any
of them throws, so which one throws first does not change the result. -/
def evalSteps (ctx : Ctx) (sig : Sig) : Option (List (Bool × ℕ × String)) := do
  let closes := ctx.ohlcv.map Bar.cl
  let highs := ctx.ohlcv.map Bar.hi
  let lows := ctx.ohlcv.map Bar.lo
  let volumes := ctx.ohlcv.map Bar.vol
  let coin := coinSym ctx.symbol
  let cond1 ← roundingBottomCond ctx.daily
  let cond5 ← squeezeCondOpt closes
  let lastDaily ← jsIdx ctx.daily ((ctx.daily.length : Int) - 1)
  let mean ← meanOpt closes
  let gs := sig.social coin
  pure [
    (cond1, 5, "Rounding Bottom"),
    (higherLowsCond lows, 4, "Higher Lows (Triangle)"),
    (psarFlipCond highs lows closes, 6, "PSAR Flip"),
    (emaCrossCond closes, 3, "EMA Cross"),
    (cond5, 7, "Volatility Squeeze"),
    (gapperCond closes lastDaily.op, 4, "Gapper Continuation"),
    (meanRevCond closes mean, 8, "Mean Reversion (Oversold)"),
    (vwapBounceCond highs lows closes volumes, 4, "VWAP Bounce"),
    (decide (ctx.currentPrice < 1/100), 2, "Unit Bias"),
    (gs.elim false (fun g => decide (g > 70)), 10,
      "Social: Galaxy Score " ++ toString (gs.getD 0)),
    ((sig.whaleFlows.filter (fun t => jsToUpper t.symbol == coin)).any
        (fun t => t.toOwnerType == "exchange"), 6, "Whale Activity Detected"),
    ((sig.funding ctx.symbol).elim false (fun r => decide (r < -(1/100))), 8,
      "Short Squeeze potential"),
    (decide (sig.fearIndex < 25), 5, "Market Extreme Fear")]

/-- Scoring one asset: run the evaluator blocks and push the candidate
(src line 212); `none` when the iteration threw and the catch of line 213
skipped the asset. -/
def scoreAsset (ctx : Ctx) (sig : Sig) : Option Candidate :=
  (evalSteps ctx sig).map (fun steps =>
    let st := runSteps steps
    { symbol := ctx.symbol, score := st.1, triggers := st.2,
      priceAt5am := ctx.currentPrice })

/-- The scan loop over the symbols (src lines 128-214): a thrown iteration
hits `catch (e) { continue; }` and contributes nothing. -/
def scanLoop (sig : Sig) : List Ctx → List Candidate
  | [] => []
  | ctx :: rest =>
      match scoreAsset ctx sig with
      | some cand => cand :: scanLoop sig rest
      | none => scanLoop sig rest

/-! ## Ranker and selector (src line 216)

`finalCandidates.sort((a, b) => b.score - a.score).slice(0, 5)`:
`Array.prototype.sort` is a stable sort (ECMAScript 2019), and the
comparator orders by descending `score` with ties compared equal.  A
stable sort by that comparator is exactly insertion sort where an element
is placed before the first already-sorted element whose score does not
exceed it. -/

/-- Stable descending insertion: `x` (which precedes every element of the
list in scan order) goes before the first element of score `≤ x.score`. -/
def insertDesc (x : Candidate) : List Candidate → List Candidate
  | [] => [x]
  | y :: ys => if y.score ≤ x.score then x :: y :: ys else y :: insertDesc x ys

/-- The stable sort by descending score. -/
def sortByScoreDesc : List Candidate → List Candidate
  | [] => []
  | x :: xs => insertDesc x (sortByScoreDesc xs)

/-- `rank`: sort descending by score (stable) and keep the first 5
(`.slice(0, 5)`). -/
def rank (l : List Candidate) : List Candidate := (sortByScoreDesc l).take 5

/-! ## Durable store (src lines 217, 266, 269)

`fs.writeFileSync(STORAGE_FILE, JSON.stringify(top5))` and
`JSON.parse(fs.readFileSync(STORAGE_FILE))`.  `JSON.stringify`/`JSON.parse`
are JS builtins, not repository code; they are modelled from the spec
("format is an exact, ordered serialization of the ScoredCandidate list
(symbol, score, triggers, baseline price) — must round-trip losslessly")
at the level of the JSON value tree. -/

/-- A JSON value (numbers as exact rationals). -/
inductive Json where
  | str : String → Json
  | num : ℚ → Json
  | arr : List Json → Json
  | obj : List (String × Json) → Json

/-- Modelled from the spec: the JSON encoding of one ScoredCandidate —
the object literal `{ symbol, score, triggers, priceAt5am }` of src
line 212 in its key order. -/
def encodeCand (c : Candidate) : Json :=
  .obj [("symbol", .str c.symbol), ("score", .num (c.score : ℚ)),
        ("triggers", .arr (c.triggers.map Json.str)),
        ("priceAt5am", .num c.priceAt5am)]

/-- Decoding a JSON string. -/
def decodeString : Json → Option String
  | .str s => some s
  | _ => none

/-- Decoding a trigger array. -/
def decodeStrings : List Json → Option (List String)
  | [] => some []
  | j :: js => do
      let s ← decodeString j
      let rest ← decodeStrings js
      pure (s :: rest)

/-- Decoding a non-negative integer score. -/
def decodeNat (j : Json) : Option ℕ :=
  match j with
  | .num q => if q.den = 1 ∧ 0 ≤ q.num then some q.num.toNat else none
  | _ => none

/-- Modelled from the spec: decoding one ScoredCandidate object. -/
def decodeCand : Json → Option Candidate
  | .obj [("symbol", .str s), ("score", scoreJ), ("triggers", .arr ts),
          ("priceAt5am", .num p)] => do
      let sc ← decodeNat scoreJ
      let trig ← decodeStrings ts
      pure { symbol := s, score := sc, triggers := trig, priceAt5am := p }
  | _ => none

/-- Decoding the candidate array. -/
def decodeCands : List Json → Option (List Candidate)
  | [] => some []
  | j :: js => do
      let c ← decodeCand j
      let rest ← decodeCands js
      pure (c :: rest)

/-- `JSON.stringify(top5)` at the value level: the ordered array of
candidate objects. -/
def encodeSelection (s : List Candidate) : Json := .arr (s.map encodeCand)

/-- `JSON.parse` of a stored selection at the value level. -/
def decodeSelection : Json → Option (List Candidate)
  | .arr js => decodeCands js
  | _ => none

/-- `fs.writeFileSync(STORAGE_FILE, ...)` (src line 217): the file's
previous content, whatever it was, is replaced whole. -/
def writeSelection (s : List Candidate) (_store : Option Json) : Option Json :=
  some (encodeSelection s)

/-- Reading the stored selection (src lines 266, 269): `none` when the
file does not exist (`fs.existsSync` is false) or does not decode. -/
def readSelection (store : Option Json) : Option (List Candidate) :=
  match store with
  | none => none
  | some j => decodeSelection j

/-! ## Outcome reconciler (src lines 264-291) -/

/-- One reconciliation row: either the successful comparison of src lines
274-279 (`change = ((now.last - pick.priceAt5am) / pick.priceAt5am) * 100`,
with the `10% TARGET MET` marker printed exactly when `change >= 10`), or
the per-symbol failure logged by the catch of src line 280. -/
inductive ReconResult where
  | ok (symbol : String) (baseline current change : ℚ) (targetMet : Bool)
  | failed (symbol : String)
deriving DecidableEq, Repr

/-- Reconciling one pick: look up the current price
(`binance.fetchTicker(pick.symbol)`, `none` when the fetch throws) and
compute the signed percent change and the target flag. -/
def reconcileOne (lookup : String → Option ℚ) (pick : Candidate) : ReconResult :=
  match lookup pick.symbol with
  | some cur =>
      let change := (cur - pick.priceAt5am) / pick.priceAt5am * 100
      .ok pick.symbol pick.priceAt5am cur change (decide (change ≥ 10))
  | none => .failed pick.symbol

/-- The reconciliation loop (src lines 272-281): each pick is processed in
its own `try { ... } catch (e) { ... }`, so every pick yields one row. -/
def reportRows (lookup : String → Option ℚ) : List Candidate → List ReconResult
  | [] => []
  | p :: ps => reconcileOne lookup p :: reportRows lookup ps

/-- `reportPerformance` (src lines 264-291): a no-op when no selection is
stored, otherwise one row per stored pick. -/
def reportPerformance (lookup : String → Option ℚ) (store : Option Json) :
    List ReconResult :=
  match readSelection store with
  | none => []
  | some picks => reportRows lookup picks

/-! ## Global data fetching (src lines 57-124, 232-234) -/

/-- The outcome of each external collaborator call of the global fetching
stage, `none` when that provider errors or times out. -/
structure Collab where
  llama : Option (List String)
  gecko : Option (List String)
  fng : Option Int
  lunar : Option (List (String × ℚ))
  whale : Option (List WhaleTx)

/-- The hardcoded fallback stablecoin set of src line 61. -/
def fallbackStablecoins : List String :=
  ["usdt", "usdc", "dai", "busd", "fdusd", "pyusd", "usdg", "rlusd"]

/-- The scan cycle from global fetching to the candidate list.  DefiLlama
(src lines 63-71), CoinGecko (76-95), LunarCrush (103-108) and Whale Alert
(111-115) are each wrapped in their own `try/catch` with a fallback
default; the fear/greed fetch (98-99) is not — its failure propagates to
the outer catch (232-234) and the whole scan aborts (`none`: nothing is
scored, written or posted).  The symbol universe and per-asset candle
fetches are venue glue (spec section 9) and enter as the prepared `assets`
list; the per-asset blacklist filter only shapes that list. -/
def runScan (c : Collab) (funding : String → Option ℚ) (assets : List Ctx) :
    Option (List Candidate) := do
  let _blacklist := fallbackStablecoins ++ c.llama.getD []
  let _top500 := c.gecko.getD []
  let fearIndex ← c.fng
  let social := lookupSocial (c.lunar.getD [])
  let whaleFlows := c.whale.getD []
  pure (scanLoop { fearIndex := fearIndex, social := social,
                   whaleFlows := whaleFlows, funding := funding } assets)

/-! ## Concrete fixtures for the closed theorems -/

/-- A flat bar with all four prices equal and unit volume. -/
def mkBar (x : ℚ) : Bar := { op := x, hi := x, lo := x, cl := x, vol := 1 }

/-- External signals with every optional lookup absent and a neutral
fear/greed index. -/
def sig0 : Sig :=
  { fearIndex := 50, social := fun _ => none, whaleFlows := [],
    funding := fun _ => none }

/-- Full 100-bar hourly history but only 29 daily bars whose bars 10..19
dip below the oldest close: the Rounding Bottom first conjunct holds, so
`dailyOhlcv[29][4]` is read and throws. -/
def ctx29dip : Ctx :=
  { symbol := "AAA/USD", ohlcv := List.replicate 100 (mkBar 1),
    daily := mkBar 10 :: List.replicate 28 (mkBar 5), currentPrice := 1 }

/-- Full 100-bar hourly history and 29 flat daily bars: the Rounding
Bottom first conjunct is false, `&&` short-circuits, nothing throws. -/
def ctx29flat : Ctx :=
  { symbol := "BBB/USD", ohlcv := List.replicate 100 (mkBar 1),
    daily := List.replicate 29 (mkBar 1), currentPrice := 1 }

/-- Exactly 99 hourly bars (one short of 100) and a full 30-bar daily
history. -/
def ctx99 : Ctx :=
  { symbol := "CCC/USD", ohlcv := List.replicate 99 (mkBar 1),
    daily := List.replicate 30 (mkBar 1), currentPrice := 1 }

/-! ## Supporting lemmas -/

theorem foldl_applyStep (l : List (Bool × ℕ × String)) (st : ℕ × List String) :
    l.foldl (fun acc s => applyStep s.1 s.2.1 s.2.2 acc) st =
      (st.1 + ((firedOf l).map Prod.fst).sum, st.2 ++ (firedOf l).map Prod.snd) := by
  induction l generalizing st with
  | nil => simp [firedOf]
  | cons s rest ih =>
      obtain ⟨fired, w, label⟩ := s
      cases fired
      · rw [List.foldl_cons, ih]
        simp [firedOf, applyStep, List.filter_cons]
      · rw [List.foldl_cons, ih]
        simp [firedOf, applyStep, List.filter_cons, Nat.add_assoc]

theorem runSteps_spec (l : List (Bool × ℕ × String)) :
    runSteps l = (((firedOf l).map Prod.fst).sum, (firedOf l).map Prod.snd) := by
  simpa [runSteps] using foldl_applyStep l (0, [])

theorem jsIdx_eq_none_iff_of_nonneg {α : Type} (l : List α) (i : Int) (h : 0 ≤ i) :
    jsIdx l i = none ↔ l.length ≤ i.toNat := by
  unfold jsIdx
  by_cases hc : 0 ≤ i ∧ i.toNat < l.length
  · rw [dif_pos hc]
    simp only [reduceCtorEq, false_iff, not_le]
    exact hc.2
  · rw [dif_neg hc]
    simp only [true_iff]
    rw [not_and] at hc
    exact Nat.le_of_not_lt (hc h)

theorem jsIdx_last_eq_none_iff {α : Type} (l : List α) :
    jsIdx l ((l.length : Int) - 1) = none ↔ l = [] := by
  cases l with
  | nil => simp [jsIdx]
  | cons x xs =>
      rw [jsIdx_eq_none_iff_of_nonneg _ _ (by simp)]
      simp only [List.length_cons]
      constructor
      · intro h
        omega
      · intro h
        simp at h

theorem windows_eq_nil_iff {p : ℕ} (hp : 0 < p) (l : List ℚ) :
    windows p l = [] ↔ l.length < p := by
  cases l with
  | nil => simpa [windows] using hp
  | cons x xs =>
      simp only [windows, List.length_cons]
      split
      · next hc =>
          simp only [reduceCtorEq, false_iff, not_lt]
          omega
      · next hc =>
          simp only [true_iff]
          omega

theorem bbCalculate_eq_nil_iff (values : List ℚ) :
    bbCalculate 20 2 values = [] ↔ values.length < 20 := by
  rw [bbCalculate, List.map_eq_nil_iff, windows_eq_nil_iff (by norm_num)]

theorem squeezeCondOpt_eq_none_iff (closes : List ℚ) :
    squeezeCondOpt closes = none ↔ closes.length < 20 := by
  rw [← bbCalculate_eq_nil_iff closes, ← jsIdx_last_eq_none_iff]
  simp only [squeezeCondOpt]
  cases jsIdx (bbCalculate 20 2 closes)
      (((bbCalculate 20 2 closes).length : Int) - 1) <;> simp

theorem meanOpt_eq_none_iff (closes : List ℚ) :
    meanOpt closes = none ↔ closes = [] := by
  cases closes <;> simp [meanOpt]

theorem roundingBottomCond_eq_none_iff (daily : List Bar) :
    roundingBottomCond daily = none ↔
      daily.head? = none ∨
        ∃ b0 m, daily.head? = some b0 ∧
          (((daily.drop 10).take 10).map Bar.cl).min? = some m ∧
          m < b0.cl ∧ daily.length < 30 := by
  simp only [roundingBottomCond]
  cases hb : daily.head? with
  | none => simp
  | some b0 =>
      cases hm : (((daily.drop 10).take 10).map Bar.cl).min? with
      | none => simp
      | some m =>
          simp only [Option.bind_eq_bind, Option.some_bind]
          by_cases hlt : m < b0.cl
          · rw [if_pos hlt]
            cases hj : jsIdx daily 29 with
            | none =>
                have h29 : daily.length ≤ 29 := by
                  simpa using (jsIdx_eq_none_iff_of_nonneg daily 29 (by norm_num)).mp hj
                simp only [Option.bind_eq_bind, Option.none_bind, true_iff]
                exact Or.inr ⟨b0, m, rfl, rfl, hlt, by omega⟩
            | some b29 =>
                have h29 : ¬ daily.length ≤ 29 := by
                  intro hle
                  have hnone : jsIdx daily 29 = none :=
                    (jsIdx_eq_none_iff_of_nonneg daily 29 (by norm_num)).mpr (by simpa using hle)
                  rw [hnone] at hj
                  exact Option.noConfusion hj
                simp only [Option.bind_eq_bind, Option.some_bind, Option.pure_def,
                  reduceCtorEq, false_iff, false_or, not_exists, not_and,
                  Option.some.injEq]
                intro b0' m' hb' hm' hlt'
                omega
          · rw [if_neg hlt]
            simp only [Option.pure_def, reduceCtorEq, false_iff, false_or,
              not_exists, not_and, Option.some.injEq]
            intro b0' m' hb' hm' hlt'
            cases hb'
            cases hm'
            exact False.elim (hlt hlt')

theorem evalSteps_eq_none_iff (ctx : Ctx) (sig : Sig) :
    evalSteps ctx sig = none ↔
      roundingBottomCond ctx.daily = none ∨
      squeezeCondOpt (ctx.ohlcv.map Bar.cl) = none ∨
      jsIdx ctx.daily ((ctx.daily.length : Int) - 1) = none ∨
      meanOpt (ctx.ohlcv.map Bar.cl) = none := by
  simp only [evalSteps]
  cases roundingBottomCond ctx.daily <;>
    cases squeezeCondOpt (ctx.ohlcv.map Bar.cl) <;>
      cases jsIdx ctx.daily ((ctx.daily.length : Int) - 1) <;>
        cases meanOpt (ctx.ohlcv.map Bar.cl) <;> simp

/-- When scoring an asset aborts: exactly when the Rounding Bottom daily
reads throw, or the hourly history is too short for the Bollinger
`lastBB` read (which subsumes the empty-`reduce` throw of the mean). -/
theorem scoreAsset_eq_none_char (ctx : Ctx) (sig : Sig) :
    scoreAsset ctx sig = none ↔
      (ctx.daily.head? = none ∨
        ∃ b0 m, ctx.daily.head? = some b0 ∧
          (((ctx.daily.drop 10).take 10).map Bar.cl).min? = some m ∧
          m < b0.cl ∧ ctx.daily.length < 30) ∨
      ctx.ohlcv.length < 20 := by
  rw [scoreAsset, Option.map_eq_none', evalSteps_eq_none_iff,
      roundingBottomCond_eq_none_iff, squeezeCondOpt_eq_none_iff,
      jsIdx_last_eq_none_iff, meanOpt_eq_none_iff]
  simp only [List.length_map, List.map_eq_nil_iff]
  constructor
  · rintro (h | h | h | h)
    · exact Or.inl h
    · exact Or.inr h
    · exact Or.inl (Or.inl (by simp [h]))
    · exact Or.inr (by simp [h])
  · rintro (h | h)
    · exact Or.inl h
    · exact Or.inr (Or.inl h)

theorem mem_insertDesc {x a : Candidate} {l : List Candidate} :
    a ∈ insertDesc x l ↔ a = x ∨ a ∈ l := by
  induction l with
  | nil => simp [insertDesc]
  | cons y ys ih =>
      by_cases hc : y.score ≤ x.score
      · simp [insertDesc, hc]
      · simp only [insertDesc, if_neg hc, List.mem_cons, ih]
        tauto

theorem pairwise_insertDesc {x : Candidate} {l : List Candidate}
    (h : List.Pairwise (fun a b => b.score ≤ a.score) l) :
    List.Pairwise (fun a b => b.score ≤ a.score) (insertDesc x l) := by
  induction l with
  | nil => simp [insertDesc]
  | cons y ys ih =>
      rcases List.pairwise_cons.mp h with ⟨hy, hys⟩
      by_cases hc : y.score ≤ x.score
      · rw [insertDesc, if_pos hc]
        refine List.pairwise_cons.mpr ⟨?_, h⟩
        intro b hb
        rcases List.mem_cons.mp hb with rfl | hb
        · exact hc
        · exact le_trans (hy b hb) hc
      · rw [insertDesc, if_neg hc]
        refine List.pairwise_cons.mpr ⟨?_, ih hys⟩
        intro b hb
        rcases mem_insertDesc.mp hb with rfl | hb
        · exact le_of_lt (Nat.lt_of_not_le hc)
        · exact hy b hb

theorem pairwise_sortByScoreDesc (l : List Candidate) :
    List.Pairwise (fun a b => b.score ≤ a.score) (sortByScoreDesc l) := by
  induction l with
  | nil => simp [sortByScoreDesc]
  | cons x xs ih => exact pairwise_insertDesc ih

theorem filter_insertDesc (x : Candidate) (l : List Candidate) (s : ℕ) :
    (insertDesc x l).filter (fun c => c.score == s) =
      if x.score == s then x :: l.filter (fun c => c.score == s)
      else l.filter (fun c => c.score == s) := by
  induction l with
  | nil =>
      by_cases hx : x.score = s <;>
        simp [insertDesc, List.filter_cons, hx]
  | cons y ys ih =>
      by_cases hc : y.score ≤ x.score
      · rw [insertDesc, if_pos hc, List.filter_cons]
      · rw [insertDesc, if_neg hc, List.filter_cons, ih, List.filter_cons]
        by_cases hx : x.score = s
        · have hy : ¬ y.score = s := by omega
          simp [hx, hy]
        · simp [hx]

theorem filter_sortByScoreDesc (l : List Candidate) (s : ℕ) :
    (sortByScoreDesc l).filter (fun c => c.score == s) =
      l.filter (fun c => c.score == s) := by
  induction l with
  | nil => rfl
  | cons x xs ih =>
      rw [sortByScoreDesc, filter_insertDesc, ih, List.filter_cons]

theorem filter_take_isPrefix (p : Candidate → Bool) (n : ℕ) (l : List Candidate) :
    (l.take n).filter p <+: l.filter p := by
  conv_rhs => rw [← List.take_append_drop n l]
  rw [List.filter_append]
  exact ⟨(l.drop n).filter p, rfl⟩

theorem length_insertDesc (x : Candidate) (l : List Candidate) :
    (insertDesc x l).length = l.length + 1 := by
  induction l with
  | nil => rfl
  | cons y ys ih =>
      by_cases hc : y.score ≤ x.score
      · rw [insertDesc, if_pos hc]
        rfl
      · rw [insertDesc, if_neg hc]
        simp [ih]

theorem length_sortByScoreDesc (l : List Candidate) :
    (sortByScoreDesc l).length = l.length := by
  induction l with
  | nil => rfl
  | cons x xs ih => rw [sortByScoreDesc, length_insertDesc, ih, List.length_cons]

theorem insertDesc_perm (x : Candidate) (l : List Candidate) :
    List.Perm (insertDesc x l) (x :: l) := by
  induction l with
  | nil => exact List.Perm.refl _
  | cons y ys ih =>
      by_cases hc : y.score ≤ x.score
      · rw [insertDesc, if_pos hc]
      · rw [insertDesc, if_neg hc]
        exact (List.Perm.cons y ih).trans (List.Perm.swap x y ys)

theorem sortByScoreDesc_perm (l : List Candidate) :
    List.Perm (sortByScoreDesc l) l := by
  induction l with
  | nil => exact List.Perm.refl _
  | cons x xs ih => exact (insertDesc_perm x (sortByScoreDesc xs)).trans (ih.cons x)

theorem decodeNat_encode (n : ℕ) : decodeNat (.num (n : ℚ)) = some n := by
  rw [decodeNat]
  rw [if_pos ⟨Rat.den_natCast n, by simp⟩]
  simp

theorem decodeStrings_encode (ts : List String) :
    decodeStrings (ts.map Json.str) = some ts := by
  induction ts with
  | nil => rfl
  | cons t rest ih => simp [decodeStrings, decodeString, ih]

theorem decodeCand_encode (c : Candidate) : decodeCand (encodeCand c) = some c := by
  rw [encodeCand, decodeCand]
  simp [decodeNat_encode, decodeStrings_encode]

theorem decodeCands_encode (s : List Candidate) :
    decodeCands (s.map encodeCand) = some s := by
  induction s with
  | nil => rfl
  | cons c rest ih => simp [decodeCands, decodeCand_encode, ih]

/-! ## Claim theorems -/

/-- C1: for every asset that is scored, the candidate's `score` is the
exact sum of the weights of exactly those evaluators whose firing
conditions hold, and `triggers` is exactly the list of the firing
evaluators' labels in the fixed evaluation order (Rounding Bottom first,
Market Extreme Fear last); the weight column of the evaluator table is
5,4,6,3,7,4,8,4,2,10,6,8,5. -/
theorem scoreAsset_sum_of_fired_weights (ctx : Ctx) (sig : Sig) :
    scoreAsset ctx sig = (evalSteps ctx sig).map (fun steps =>
      { symbol := ctx.symbol,
        score := ((firedOf steps).map Prod.fst).sum,
        triggers := (firedOf steps).map Prod.snd,
        priceAt5am := ctx.currentPrice }) ∧
      (evalSteps ctx sig).elim True (fun steps =>
        steps.map (fun st => st.2.1) = [5, 4, 6, 3, 7, 4, 8, 4, 2, 10, 6, 8, 5]) := by
  constructor
  · rw [scoreAsset]
    cases evalSteps ctx sig with
    | none => rfl
    | some steps => simp [runSteps_spec]
  · simp only [evalSteps]
    cases roundingBottomCond ctx.daily <;>
      cases squeezeCondOpt (ctx.ohlcv.map Bar.cl) <;>
        cases jsIdx ctx.daily ((ctx.daily.length : Int) - 1) <;>
          cases meanOpt (ctx.ohlcv.map Bar.cl) <;> simp

/-- C5: `rank` totally orders candidates by descending score, and is
stable: candidates of any equal score appear in the output in their input
order (the filtered-by-score subsequence of the output is a prefix of the
input's).  `rank` is a function of the input list alone, so identical
inputs give identical rankings. -/
theorem rank_sorted_and_stable (l : List Candidate) :
    List.Pairwise (fun a b => b.score ≤ a.score) (rank l) ∧
      ∀ s : ℕ, (rank l).filter (fun c => c.score == s) <+:
        l.filter (fun c => c.score == s) := by
  constructor
  · exact List.Pairwise.sublist (List.take_sublist 5 _) (pairwise_sortByScoreDesc l)
  · intro s
    have h := filter_take_isPrefix (fun c => c.score == s) 5 (sortByScoreDesc l)
    rw [filter_sortByScoreDesc] at h
    exact h

/-- C7: `rank` returns at most `K = 5` entries, and with at most five
candidates it returns all of them (a permutation of the input, in ranked
order). -/
theorem rank_length_and_small_perm (l : List Candidate) :
    (rank l).length = min 5 l.length ∧
      (l.length ≤ 5 → List.Perm (rank l) l) := by
  constructor
  · rw [rank, List.length_take, length_sortByScoreDesc]
  · intro h
    rw [rank, List.take_of_length_le (by rw [length_sortByScoreDesc]; exact h)]
    exact sortByScoreDesc_perm l

/-- A three-candidate list (fewer than five) for the `rank` witness. -/
def wPicks : List Candidate :=
  [{ symbol := "BTC/USD", score := 27, triggers := ["EMA Cross"], priceAt5am := 100 },
   { symbol := "ETH/USD", score := 19, triggers := [], priceAt5am := 50 },
   { symbol := "XRP/USD", score := 19, triggers := ["Unit Bias"], priceAt5am := 1/200 }]

/-- Witness for C7 at a concrete three-candidate list. -/
theorem rank_length_and_small_perm_witness :
    (rank wPicks).length = min 5 wPicks.length ∧ List.Perm (rank wPicks) wPicks :=
  ⟨(rank_length_and_small_perm wPicks).1,
   (rank_length_and_small_perm wPicks).2 (by decide)⟩

/-- C2 counterexample: `ctx29dip` has a complete 100-bar hourly history,
every optional external lookup merely absent, and a single evaluator
(Rounding Bottom) that cannot compute because the daily history has only
29 bars; the remaining evaluators could all compute, yet the asset is not
scored at all — the one evaluator's unavailability aborts scoring of the
asset. -/
theorem single_evaluator_unavailability_aborts_cex :
    ctx29dip.ohlcv.length = 100 ∧ ctx29dip.daily.length = 29 ∧
      roundingBottomCond ctx29dip.daily = none ∧
      scoreAsset ctx29dip sig0 = none := by decide

/-- C2 (amended): a missing optional lookup or an out-of-range hourly read
is treated as "not fired" and the asset is still scored, except that
scoring of the asset aborts exactly when a computation throws: the daily
history is empty, or it has fewer than 30 bars while the bars[10..19]
minimum close is below the oldest close (Rounding Bottom reads daily index
29 and throws), or there are fewer than 20 hourly bars (the Bollinger
`lastBB` read throws). -/
theorem scoreAsset_abort_characterization (ctx : Ctx) (sig : Sig) :
    scoreAsset ctx sig = none ↔
      (ctx.daily.head? = none ∨
        ∃ b0 m, ctx.daily.head? = some b0 ∧
          (((ctx.daily.drop 10).take 10).map Bar.cl).min? = some m ∧
          m < b0.cl ∧ ctx.daily.length < 30) ∨
      ctx.ohlcv.length < 20 :=
  scoreAsset_eq_none_char ctx sig

/-- C3 counterexample: every collaborator healthy except the fear/greed
index provider, one scoreable asset in the universe — and the scan aborts
with no candidate list at all instead of completing. -/
theorem fng_failure_aborts_scan_cex :
    runScan { llama := some [], gecko := some [], fng := none,
              lunar := some [], whale := some [] } (fun _ => none) [ctx29flat] =
      none := rfl

/-- C3 (amended): unavailability of the stablecoin-list, market-cap-list,
social, or whale-transfer provider degrades gracefully (fallback default /
dependent evaluator disabled) and the scan completes; only the fear/greed
index fetch is outside any inner try/catch, so its failure (and only its)
aborts the scan. -/
theorem scan_completes_without_optional_collaborators
    (ll gk : Option (List String)) (ln : Option (List (String × ℚ)))
    (wh : Option (List WhaleTx)) (f : Int) (funding : String → Option ℚ)
    (assets : List Ctx) :
    runScan { llama := ll, gecko := gk, fng := some f, lunar := ln, whale := wh }
        funding assets =
      some (scanLoop { fearIndex := f, social := lookupSocial (ln.getD []),
                       whaleFlows := wh.getD [], funding := funding } assets) := rfl

/-- C4 counterexample: an asset with exactly 99 hourly bars (and a full
30-bar daily history) is scored and does appear in the candidate list —
the out-of-range reads at hourly index 99 are `undefined`, every
comparison with them is false, and nothing throws. -/
theorem asset_with_99_hourly_bars_scored_cex :
    ctx99.ohlcv.length = 99 ∧ (scoreAsset ctx99 sig0).isSome = true ∧
      scanLoop sig0 [ctx99] ≠ [] := by decide

/-- C4 (amended): an asset with exactly 99 hourly bars and a full 30-bar
daily history is always scored (on the evaluators that can still fire)
rather than excluded. -/
theorem scoreAsset_isSome_of_99_hourly (ctx : Ctx) (sig : Sig)
    (h1 : ctx.ohlcv.length = 99) (h2 : ctx.daily.length = 30) :
    (scoreAsset ctx sig).isSome = true := by
  rw [Option.isSome_iff_ne_none]
  intro hnone
  rcases (scoreAsset_eq_none_char ctx sig).mp hnone with
    (h | ⟨b0, m, hb, hm, hlt, hlen⟩) | h
  · rw [List.head?_eq_none_iff] at h
    rw [h] at h2
    simp at h2
  · omega
  · omega

/-- Witness for C4's amended theorem at the concrete 99-bar asset. -/
theorem scoreAsset_isSome_of_99_hourly_witness :
    ctx99.ohlcv.length = 99 ∧ ctx99.daily.length = 30 ∧
      (scoreAsset ctx99 sig0).isSome = true :=
  ⟨by decide, by decide,
   scoreAsset_isSome_of_99_hourly ctx99 sig0 (by decide) (by decide)⟩

/-- C10 counterexample: 29 daily bars whose bars[10..19] minimum close is
not below the oldest close: the first conjunct of the Rounding Bottom
condition is false, `&&` short-circuits before daily index 29 is read,
nothing throws, and the asset (with its complete 100-bar hourly history)
is scored and kept in the scan — not excluded. -/
theorem short_daily_not_always_excluded_cex :
    ctx29flat.daily.length = 29 ∧ ctx29flat.ohlcv.length = 100 ∧
      (scoreAsset ctx29flat sig0).isSome = true ∧
      scanLoop sig0 [ctx29flat] ≠ [] := by decide

/-- C10 (amended): for an asset with a nonempty daily history of fewer
than 30 bars (and at least 20 hourly bars), the Rounding Bottom check
throws — and the per-asset catch excludes the asset — exactly when the
bars[10..19] minimum close is strictly below the oldest daily close;
otherwise the check short-circuits and the asset is still scored. -/
theorem short_daily_abort_iff (ctx : Ctx) (sig : Sig)
    (h1 : ctx.daily ≠ []) (h2 : ctx.daily.length < 30)
    (h3 : 20 ≤ ctx.ohlcv.length) :
    scoreAsset ctx sig = none ↔
      ∃ b0 m, ctx.daily.head? = some b0 ∧
        (((ctx.daily.drop 10).take 10).map Bar.cl).min? = some m ∧ m < b0.cl := by
  rw [scoreAsset_eq_none_char]
  constructor
  · rintro ((h | ⟨b0, m, hb, hm, hlt, hlen⟩) | h)
    · rw [List.head?_eq_none_iff] at h
      exact absurd h h1
    · exact ⟨b0, m, hb, hm, hlt⟩
    · omega
  · rintro ⟨b0, m, hb, hm, hlt⟩
    exact Or.inl (Or.inr ⟨b0, m, hb, hm, hlt, h2⟩)

/-- Witness for C10's amended theorem at the concrete 29-bar dipping daily
history. -/
theorem short_daily_abort_iff_witness :
    ctx29dip.daily ≠ [] ∧ ctx29dip.daily.length < 30 ∧
      20 ≤ ctx29dip.ohlcv.length ∧
      (scoreAsset ctx29dip sig0 = none ↔
        ∃ b0 m, ctx29dip.daily.head? = some b0 ∧
          (((ctx29dip.daily.drop 10).take 10).map Bar.cl).min? = some m ∧
          m < b0.cl) :=
  ⟨by decide, by decide, by decide,
   short_daily_abort_iff ctx29dip sig0 (by decide) (by decide) (by decide)⟩

/-- C6: for every pick whose current-price lookup succeeds, reconciliation
computes the signed percent change `(current - baseline) / baseline * 100`
and sets the target flag exactly when that change is at least 10; in
particular baseline 100 and current price 112 give exactly +12 with the
target met. -/
theorem reconcileOne_percent_change (lookup : String → Option ℚ)
    (pick : Candidate) (cur : ℚ) (h : lookup pick.symbol = some cur) :
    reconcileOne lookup pick =
      .ok pick.symbol pick.priceAt5am cur
        ((cur - pick.priceAt5am) / pick.priceAt5am * 100)
        (decide ((cur - pick.priceAt5am) / pick.priceAt5am * 100 ≥ 10)) ∧
      (pick.priceAt5am = 100 → cur = 112 →
        reconcileOne lookup pick = .ok pick.symbol 100 112 12 true) := by
  constructor
  · simp only [reconcileOne, h]
  · intro hb hc
    simp only [reconcileOne, h, hb, hc]
    norm_num

/-- A concrete pick with baseline price 100 for the reconciliation witness. -/
def wPick : Candidate :=
  { symbol := "BTC/USD", score := 27, triggers := ["EMA Cross"], priceAt5am := 100 }

/-- Witness for C6: baseline 100, current price 112, change exactly +12,
target met. -/
theorem reconcileOne_percent_change_witness :
    (fun _ => some (112 : ℚ)) wPick.symbol = some 112 ∧
      reconcileOne (fun _ => some 112) wPick =
        .ok wPick.symbol 100 112 12 true :=
  ⟨rfl, (reconcileOne_percent_change (fun _ => some 112) wPick 112 rfl).2 rfl rfl⟩

/-- C8: persistence round-trips losslessly: writing any selection and
reading it back yields it exactly (symbols, scores, ordered trigger lists
— empty ones included — and baseline prices), whatever was stored before
being fully replaced. -/
theorem write_read_roundtrip (s : List Candidate) (prior : Option Json) :
    readSelection (writeSelection s prior) = some s := by
  simp only [writeSelection, readSelection, encodeSelection, decodeSelection,
    decodeCands_encode]

/-- C9: a current-price lookup failure for one picked symbol is recorded
as that symbol's inline failure row and leaves the row of every other
pick — before and after it — exactly as it would have been: the batch is
never aborted. -/
theorem reportRows_partial_failure (lookup : String → Option ℚ)
    (pre post : List Candidate) (p : Candidate) (h : lookup p.symbol = none) :
    reportRows lookup (pre ++ p :: post) =
      reportRows lookup pre ++
        ReconResult.failed p.symbol :: reportRows lookup post := by
  induction pre with
  | nil => simp [reportRows, reconcileOne, h]
  | cons q qs ih => simp [reportRows, ih]

/-- A pick whose price lookup will fail in the C9 witness. -/
def wFailPick : Candidate :=
  { symbol := "ETH/USD", score := 19, triggers := [], priceAt5am := 50 }

/-- A lookup that fails for ETH/USD only. -/
def wLookup : String → Option ℚ :=
  fun s => if s == "ETH/USD" then none else some 112

/-- Witness for C9: the middle pick's lookup fails, its failure row is
inline, the surrounding picks are still reconciled. -/
theorem reportRows_partial_failure_witness :
    wLookup wFailPick.symbol = none ∧
      reportRows wLookup ([wPick] ++ wFailPick :: [wPick]) =
        reportRows wLookup [wPick] ++
          ReconResult.failed wFailPick.symbol :: reportRows wLookup [wPick] :=
  ⟨rfl, reportRows_partial_failure wLookup [wPick] [wPick] wFailPick rfl⟩

end DailyMovers
